import Mathlib

/-!
Verification development for the pyth-solana-receiver program
(src/target_chains/solana/programs/pyth-solana-receiver/src/lib.rs).

The two instructions under study are `post_updates` and
`post_accumulator_update_vaa`.  The receiver crate depends on helper
crates (pythnet_sdk wire codecs, the Keccak160 merkle accumulator,
serde_wormhole) whose sources are not part of this repository snapshot;
those helpers are modelled from the specification, as indicated on each
definition.  The control flow of the two instructions themselves is
translated directly from lib.rs.

Machine integers are modelled as `Nat` values; byte strings as
`List Nat` with each element standing for one byte.  Logging via the
Solana `msg!` macro is modelled by returning the logged decoded
messages and the final counter value from `post_updates`.
-/

set_option maxRecDepth 10000

namespace PythReceiver

/-- A byte string: each element stands for one byte. -/
abbrev Bytes := List Nat

/-- Big-endian value of a byte string. -/
def beVal (bs : Bytes) : Nat := bs.foldl (fun a b => a * 256 + b) 0

/-- Read a `k`-byte big-endian integer from the front of a byte string;
fails when the input is too short. -/
def readBE (k : Nat) (bs : Bytes) : Option (Nat × Bytes) :=
  if k ≤ bs.length then some (beVal (bs.take k), bs.drop k) else none

/-- Read `k` raw bytes from the front of a byte string; fails when the
input is too short. -/
def readBytes (k : Nat) (bs : Bytes) : Option (Bytes × Bytes) :=
  if k ≤ bs.length then some (bs.take k, bs.drop k) else none

/-- Modelled from the spec: the PriceUpdate domain message carries
feedId ([32]byte), price (i64), confidence (u64), exponent (i32) and
publishTime (i64).  The pythnet_sdk message definitions are not in this
snapshot, so the field list follows the data model of the spec; signed
fields are kept as their raw big-endian bit patterns. -/
structure PriceFeedMessage where
  feed_id : Bytes
  price : Nat
  conf : Nat
  exponent : Nat
  publish_time : Nat
deriving Repr, DecidableEq, Inhabited

/-- Modelled from the spec: the TwapUpdate domain message.  The spec
does not fix its field layout, so the variant carries the raw body
bytes following the discriminator. -/
structure TwapMessage where
  body : Bytes
deriving Repr, DecidableEq, Inhabited

/-- The pythnet message type.  `priceFeedMessage` and `twapMessage`
are the two variants handled by `post_updates`; `otherMessage` mirrors
the catch-all arm of the match in lib.rs for message variants outside
the handled set.  The spec-modelled decoder below rejects unknown
discriminators, so it never produces `otherMessage`. -/
inductive Message where
  | priceFeedMessage (m : PriceFeedMessage)
  | twapMessage (m : TwapMessage)
  | otherMessage (tag : Nat)
deriving Repr, DecidableEq, Inhabited

/-- Modelled from the spec: strict big-endian decoding of the
PriceUpdate body after its discriminator byte: 32-byte feed id, 8-byte
price, 8-byte confidence, 4-byte exponent, 8-byte publish time, and no
trailing bytes. -/
def decodePriceFeedBody (rest : Bytes) : Option Message :=
  match readBytes 32 rest with
  | none => none
  | some (fid, r1) =>
    match readBE 8 r1 with
    | none => none
    | some (p, r2) =>
      match readBE 8 r2 with
      | none => none
      | some (c, r3) =>
        match readBE 4 r3 with
        | none => none
        | some (e, r4) =>
          match readBE 8 r4 with
          | none => none
          | some (t, r5) =>
            if r5 = [] then some (.priceFeedMessage ⟨fid, p, c, e, t⟩) else none

/-- Modelled from the spec: the leaf decoder dispatches on a leading
type discriminator (0 = PriceUpdate, 1 = TwapUpdate) and fails on any
discriminator outside the known set; unrecognized tags are a decode
failure, not a third variant. -/
def decodeMessage (bs : Bytes) : Option Message :=
  match bs with
  | [] => none
  | tag :: rest =>
    if tag = 0 then decodePriceFeedBody rest
    else if tag = 1 then some (.twapMessage ⟨rest⟩)
    else none

/-- An update of the wormhole merkle proof: raw leaf bytes together
with the ordered sibling digests of its inclusion proof. -/
structure MerklePriceUpdate where
  message : Bytes
  proof : List Bytes
deriving Repr, DecidableEq, Inhabited

/-- Modelled from the spec: read `n` 32-byte sibling digests. -/
def readDigests : Nat → Bytes → Option (List Bytes × Bytes)
  | 0, bs => some ([], bs)
  | n + 1, bs =>
    match readBytes 32 bs with
    | none => none
    | some (d, r) =>
      match readDigests n r with
      | none => none
      | some (ds, r2) => some (d :: ds, r2)

/-- Modelled from the spec: strict big-endian wire format of one
MerklePriceUpdate: 2-byte message length, message bytes, 1-byte proof
length, that many 32-byte digests, and no trailing bytes. -/
def parseMerklePriceUpdate (bs : Bytes) : Option MerklePriceUpdate :=
  match readBE 2 bs with
  | none => none
  | some (len, r1) =>
    match readBytes len r1 with
    | none => none
    | some (msgBytes, r2) =>
      match readBE 1 r2 with
      | none => none
      | some (n, r3) =>
        match readDigests n r3 with
        | none => none
        | some (proof, r4) =>
          if r4 = [] then some ⟨msgBytes, proof⟩ else none

/-- Modelled from the spec: domain-separation prefix for leaf hashing. -/
def LEAF_PREFIX : Bytes := [0]

/-- Modelled from the spec: domain-separation prefix for internal-node
hashing, distinct from the leaf prefix. -/
def NODE_PREFIX : Bytes := [1]

/-- Lexicographic comparison of byte strings, used as the canonical
ordering of sibling operands when hashing an internal node. -/
def bytesLe : Bytes → Bytes → Bool
  | [], _ => true
  | _ :: _, [] => false
  | a :: as, b :: bs => if a < b then true else if b < a then false else bytesLe as bs

/-- Modelled from the spec: hash of a leaf, with leaf domain separation.
The concrete hash (Keccak160) is not in this snapshot, so the hash
function `H` is a parameter throughout. -/
def hashLeaf (H : Bytes → Bytes) (leaf : Bytes) : Bytes := H (LEAF_PREFIX ++ leaf)

/-- Modelled from the spec: hash of an internal node, with node domain
separation and the lexicographically smaller operand first. -/
def hashNode (H : Bytes → Bytes) (a b : Bytes) : Bytes :=
  if bytesLe a b then H (NODE_PREFIX ++ a ++ b) else H (NODE_PREFIX ++ b ++ a)

/-- Modelled from the spec: inclusion-proof check of the hash
accumulator.  Hash the leaf, fold the sibling digests over the
node-hash step in order, and compare with the committed root. -/
def merkleCheck (H : Bytes → Bytes) (root : Bytes) (proof : List Bytes)
    (leaf : Bytes) : Bool :=
  decide (proof.foldl (fun cur sib => hashNode H cur sib) (hashLeaf H leaf) = root)

/-- The receiver error codes used by lib.rs.  The error module source
is not in this snapshot, but every call site in lib.rs constructs the
variant with no argument, so all variants are nullary. -/
inductive ReceiverError where
  | InvalidEmitterChain
  | InvalidWormholeMessage
  | DeserializeUpdateFailed
  | InvalidPriceUpdate
  | InvalidAccumulatorMessage
  | InvalidAccumulatorMessageType
deriving Repr, DecidableEq

/-- The parsed wormhole message carried by the posted VAA payload; its
single supported payload variant carries the committed merkle root. -/
structure WormholeMessage where
  root : Bytes
deriving Repr, DecidableEq

/-- Modelled from the spec: strict decoding of the wormhole message
from the posted VAA payload: a version byte (1), the discriminator of
the single supported commitment variant (0), and a 32-byte root with
no trailing bytes; any other discriminator or shape is rejected. -/
def WormholeMessage.try_from_bytes (bs : Bytes) : Option WormholeMessage :=
  match bs with
  | v :: d :: rest =>
    if v = 1 ∧ d = 0 ∧ rest.length = 32 then some ⟨rest⟩ else none
  | _ => none

/-- The posted VAA account as read by `post_updates`: lib.rs uses its
emitter chain and its payload bytes. -/
structure AnchorVaa where
  emitter_chain : Nat
  payload : Bytes
deriving Repr, DecidableEq

/-- The loop of `post_updates` (lib.rs lines 142-164), with the running
list of decoded (logged) messages and the `count_updates` counter made
explicit.  Each pending update is deserialized, its inclusion proof is
checked against the root, and its leaf is decoded; any failure aborts
the whole call with the corresponding receiver error. -/
def processUpdates (H : Bytes → Bytes) (root : Bytes) :
    List Bytes → List Message → Nat → Except ReceiverError (List Message × Nat)
  | [], msgs, count => .ok (msgs, count)
  | pu :: rest, msgs, count =>
    match parseMerklePriceUpdate pu with
    | none => .error .DeserializeUpdateFailed
    | some mpu =>
      if !merkleCheck H root mpu.proof mpu.message then .error .InvalidPriceUpdate
      else
        match decodeMessage mpu.message with
        | none => .error .InvalidAccumulatorMessage
        | some (.priceFeedMessage m) =>
          processUpdates H root rest (msgs ++ [.priceFeedMessage m]) (count + 1)
        | some (.twapMessage m) =>
          processUpdates H root rest (msgs ++ [.twapMessage m]) (count + 1)
        | some (.otherMessage _) => .error .InvalidAccumulatorMessageType

/-- The `post_updates` instruction (lib.rs lines 120-167): require the
posted VAA emitter chain to equal the expected one, parse the wormhole
message from the VAA payload, extract the committed root from its
single supported variant, then verify and decode every update in
order.  The decoded messages and the final counter, which lib.rs emits
through program logs, are returned as the success value.  `vaa_hash`
is only used by the account plumbing to derive the posted VAA address
and does not enter the computation. -/
def post_updates (H : Bytes → Bytes) (_vaa_hash : Bytes) (posted_vaa : AnchorVaa)
    (emitter_chain : Nat) (price_updates : List Bytes) :
    Except ReceiverError (List Message × Nat) :=
  if posted_vaa.emitter_chain ≠ emitter_chain then .error .InvalidEmitterChain
  else
    match WormholeMessage.try_from_bytes posted_vaa.payload with
    | none => .error .InvalidWormholeMessage
    | some wh => processUpdates H wh.root price_updates [] 0

/-- One update passes the loop body of `post_updates` without error:
it deserializes, its proof checks against the root, and its leaf
decodes to one of the two handled message variants. -/
def updateOk (H : Bytes → Bytes) (root : Bytes) (pu : Bytes) : Bool :=
  match parseMerklePriceUpdate pu with
  | none => false
  | some mpu =>
    merkleCheck H root mpu.proof mpu.message &&
      match decodeMessage mpu.message with
      | some (.priceFeedMessage _) => true
      | some (.twapMessage _) => true
      | _ => false

/-- The decoded message of one update, defaulting when the update does
not decode; used to state what `post_updates` returns on success. -/
def decodedOf (pu : Bytes) : Message :=
  match parseMerklePriceUpdate pu with
  | none => default
  | some mpu => (decodeMessage mpu.message).getD default

/-- Modelled from the spec: the attested cross-chain message (the
parsed VAA), with the field list of the data model: version (u8),
signer-set index (u32), timestamp (u32), nonce (u32), emitter chain
(u16), emitter address ([32]byte), sequence (u64), consistency level
(u8) and the remaining bytes as payload.  The serde_wormhole parser is
not in this snapshot; decoding follows this layout big-endian. -/
structure AttestedMessage where
  version : Nat
  guardian_set_index : Nat
  timestamp : Nat
  nonce : Nat
  emitter_chain : Nat
  emitter_address : Bytes
  sequence : Nat
  consistency_level : Nat
  payload : Bytes
deriving Repr, DecidableEq

/-- Modelled from the spec: parse an attested message from raw VAA
bytes, failing on truncated input. -/
def parseVaa (bs : Bytes) : Option AttestedMessage :=
  match readBE 1 bs with
  | none => none
  | some (v, r1) =>
    match readBE 4 r1 with
    | none => none
    | some (g, r2) =>
      match readBE 4 r2 with
      | none => none
      | some (t, r3) =>
        match readBE 4 r3 with
        | none => none
        | some (n, r4) =>
          match readBE 2 r4 with
          | none => none
          | some (ec, r5) =>
            match readBytes 32 r5 with
            | none => none
            | some (ea, r6) =>
              match readBE 8 r6 with
              | none => none
              | some (sq, r7) =>
                match readBE 1 r7 with
                | none => none
                | some (cl, r8) => some ⟨v, g, t, n, ec, ea, sq, cl, r8⟩

/-- The accumulator update data: its single proof variant holds the
raw VAA bytes and the (ignored by `post_accumulator_update_vaa`)
updates. -/
structure AccumulatorUpdateData where
  vaa : Bytes
  updates : List Bytes
deriving Repr, DecidableEq

/-- Modelled from the spec: read `n` length-prefixed update blobs
(2-byte big-endian length each). -/
def readUpdates : Nat → Bytes → Option (List Bytes × Bytes)
  | 0, bs => some ([], bs)
  | n + 1, bs =>
    match readBE 2 bs with
    | none => none
    | some (len, r1) =>
      match readBytes len r1 with
      | none => none
      | some (u, r2) =>
        match readUpdates n r2 with
        | none => none
        | some (us, r3) => some (u :: us, r3)

/-- Modelled from the spec: strict decoding of AccumulatorUpdateData:
a version byte (1), the discriminator of the single WormholeMerkle
proof variant (0), a 2-byte big-endian VAA length, the VAA bytes, a
1-byte update count, that many length-prefixed update blobs, and no
trailing bytes. -/
def parseAccumulatorUpdateData (bs : Bytes) : Option AccumulatorUpdateData :=
  match bs with
  | 1 :: 0 :: rest =>
    (match readBE 2 rest with
     | none => none
     | some (len, r1) =>
       match readBytes len r1 with
       | none => none
       | some (vaaBytes, r2) =>
         match readBE 1 r2 with
         | none => none
         | some (n, r3) =>
           match readUpdates n r3 with
           | none => none
           | some (us, r4) => if r4 = [] then some ⟨vaaBytes, us⟩ else none)
  | _ => none

/-- The instruction data of the wormhole postVAA CPI call, translated
from the PostVAAInstructionData struct of lib.rs (lines 219-233). -/
structure PostVAAInstructionData where
  version : Nat
  guardian_set_index : Nat
  timestamp : Nat
  nonce : Nat
  emitter_chain : Nat
  emitter_address : Bytes
  sequence : Nat
  consistency_level : Nat
  payload : Bytes
deriving Repr, DecidableEq

/-- Outcome of `post_accumulator_update_vaa`: success carrying the
constructed postVAA instruction data, the two error paths of lib.rs,
or `panicked` for the `unwrap()` on line 71 of lib.rs, which aborts
the program when the embedded VAA bytes do not parse. -/
inductive AccOutcome where
  | ok (ix : PostVAAInstructionData)
  | invalidArgument
  | invalidEmitterChain
  | panicked
deriving Repr, DecidableEq

/-- The body of the WormholeMerkle branch of
`post_accumulator_update_vaa` (lib.rs lines 70-104): parse the VAA
bytes with `unwrap()` (panicking on failure), require the emitter
chain to equal the expected one, and build the postVAA instruction
data from the VAA header and body.  The CPI invocation itself is
account plumbing and is modelled by returning the instruction data. -/
def processVaaBytes (emitter_chain : Nat) (vaaBytes : Bytes) : AccOutcome :=
  match parseVaa vaaBytes with
  | none => .panicked
  | some v =>
    if v.emitter_chain ≠ emitter_chain then .invalidEmitterChain
    else .ok ⟨v.version, v.guardian_set_index, v.timestamp, v.nonce,
      v.emitter_chain, v.emitter_address, v.sequence, v.consistency_level, v.payload⟩

/-- The `post_accumulator_update_vaa` instruction entry: deserialize
the accumulator update data (failing with InvalidArgument), then
process the VAA bytes of its proof variant, ignoring the updates. -/
def post_accumulator_update_vaa (emitter_chain : Nat) (data : Bytes) : AccOutcome :=
  match parseAccumulatorUpdateData data with
  | none => .invalidArgument
  | some aud => processVaaBytes emitter_chain aud.vaa

/-! Concrete values used by witnesses and counterexamples. -/

/-- A concrete stand-in hash for instantiating the hash parameter `H`
in witnesses: a 32-byte digest whose last byte is the byte sum of the
input modulo 256. -/
def H0 : Bytes → Bytes :=
  fun bs => List.replicate 31 0 ++ [bs.foldl (fun a b => (a + b) % 256) 0]

/-- A concrete leaf decoding to a PriceUpdate message (tag 0 followed
by 60 zero bytes). -/
def leafP : Bytes := 0 :: List.replicate 60 0

/-- A second concrete PriceUpdate leaf differing from `leafP` in its
last byte, so its leaf hash under `H0` differs. -/
def leafB : Bytes := 0 :: (List.replicate 59 0 ++ [1])

/-- The committed root matching `leafP` as sole tree node under `H0`. -/
def root0 : Bytes := hashLeaf H0 leafP

/-- A posted VAA whose payload carries `root0` in the supported
commitment variant, with emitter chain 26. -/
def vaa0 : AnchorVaa := ⟨26, 1 :: 0 :: root0⟩

/-- Wire encoding of the valid update: `leafP` with an empty proof. -/
def goodU : Bytes := [0, 61] ++ leafP ++ [0]

/-- Wire encoding of the tampered update: `leafB` with an empty proof,
whose recomputed root differs from `root0`. -/
def badU : Bytes := [0, 61] ++ leafB ++ [0]

/-- A concrete leaf carrying the unknown type discriminator 7. -/
def leafX : Bytes := 7 :: List.replicate 60 0

/-- The committed root matching `leafX` as sole tree node under `H0`. -/
def rootX : Bytes := hashLeaf H0 leafX

/-- A posted VAA whose payload carries `rootX` in the supported
commitment variant, with emitter chain 26. -/
def vaaX : AnchorVaa := ⟨26, 1 :: 0 :: rootX⟩

/-- Wire encoding of the update with the unknown-tag leaf `leafX` and
an empty proof, so its inclusion proof against `rootX` succeeds. -/
def badX : Bytes := [0, 61] ++ leafX ++ [0]

/-! Helper lemmas about the update-processing loop. -/

/-- A step of the loop on an update that passes all three checks
appends its decoded message and increments the counter. -/
theorem processUpdates_step_ok (H : Bytes → Bytes) (root : Bytes) (pu : Bytes)
    (h : updateOk H root pu = true) (rest : List Bytes) (msgs : List Message)
    (count : Nat) :
    processUpdates H root (pu :: rest) msgs count =
      processUpdates H root rest (msgs ++ [decodedOf pu]) (count + 1) := by
  unfold updateOk at h
  cases hp : parseMerklePriceUpdate pu with
  | none => rw [hp] at h; exact absurd h (by simp)
  | some mpu =>
    rw [hp] at h
    rw [Bool.and_eq_true] at h
    cases hd : decodeMessage mpu.message with
    | none => rw [hd] at h; exact absurd h.2 (by simp)
    | some m =>
      rw [hd] at h
      have hdec : decodedOf pu = m := by simp [decodedOf, hp, hd]
      rw [hdec]
      cases m with
      | priceFeedMessage pm => simp [processUpdates, hp, hd, h.1]
      | twapMessage tm => simp [processUpdates, hp, hd, h.1]
      | otherMessage t => exact absurd h.2 (by simp)

/-- Processing a list of passing updates returns all their decoded
messages in order and adds the list length to the counter. -/
theorem processUpdates_all_ok (H : Bytes → Bytes) (root : Bytes) (ups : List Bytes)
    (h : ∀ pu ∈ ups, updateOk H root pu = true) (msgs : List Message) (count : Nat) :
    processUpdates H root ups msgs count =
      .ok (msgs ++ ups.map decodedOf, count + ups.length) := by
  induction ups generalizing msgs count with
  | nil => simp [processUpdates]
  | cons pu rest ih =>
    rw [processUpdates_step_ok H root pu (h pu (List.mem_cons_self pu rest)) rest msgs count,
        ih (fun u hu => h u (List.mem_cons_of_mem pu hu)) (msgs ++ [decodedOf pu])
          (count + 1)]
    have h1 : (msgs ++ [decodedOf pu]) ++ rest.map decodedOf =
        msgs ++ (pu :: rest).map decodedOf := by simp
    have h2 : count + 1 + rest.length = count + (pu :: rest).length := by
      simp; omega
    rw [h1, h2]

/-- Processing a list starting with passing updates consumes them and
continues on the remainder with the accumulated state. -/
theorem processUpdates_append_ok (H : Bytes → Bytes) (root : Bytes)
    (pre rest : List Bytes) (msgs : List Message) (count : Nat)
    (h : ∀ pu ∈ pre, updateOk H root pu = true) :
    processUpdates H root (pre ++ rest) msgs count =
      processUpdates H root rest (msgs ++ pre.map decodedOf) (count + pre.length) := by
  induction pre generalizing msgs count with
  | nil => simp
  | cons pu pre ih =>
    rw [List.cons_append,
        processUpdates_step_ok H root pu (h pu (List.mem_cons_self pu pre)) _ msgs count,
        ih (msgs ++ [decodedOf pu]) (count + 1)
          (fun u hu => h u (List.mem_cons_of_mem pu hu))]
    have h1 : (msgs ++ [decodedOf pu]) ++ pre.map decodedOf =
        msgs ++ (pu :: pre).map decodedOf := by simp
    have h2 : count + 1 + pre.length = count + (pu :: pre).length := by
      simp; omega
    rw [h1, h2]

/-- A successful run of the loop adds the number of pending updates to
the counter and appends that many decoded messages. -/
theorem processUpdates_ok_count (H : Bytes → Bytes) (root : Bytes) (ups : List Bytes) :
    ∀ acc c0 msgs c, processUpdates H root ups acc c0 = .ok (msgs, c) →
      c = c0 + ups.length ∧ msgs.length = acc.length + ups.length := by
  induction ups with
  | nil =>
    intro acc c0 msgs c h
    simp only [processUpdates] at h
    injection h with h
    injection h with h1 h2
    subst h1; subst h2
    simp
  | cons pu rest ih =>
    intro acc c0 msgs c h
    simp only [processUpdates] at h
    split at h
    · exact Except.noConfusion h
    · split at h
      · exact Except.noConfusion h
      · split at h
        · exact Except.noConfusion h
        · obtain ⟨hc, hl⟩ := ih _ _ _ _ h
          simp at hl
          constructor
          · simp; omega
          · simp; omega
        · obtain ⟨hc, hl⟩ := ih _ _ _ _ h
          simp at hl
          constructor
          · simp; omega
          · simp; omega
        · exact Except.noConfusion h

/-- The body decoder of the PriceUpdate variant yields a PriceUpdate
message or fails; it never yields another variant. -/
theorem decodePriceFeedBody_shape (r : Bytes) (m : Message)
    (h : decodePriceFeedBody r = some m) :
    ∃ pm, m = .priceFeedMessage pm := by
  unfold decodePriceFeedBody at h
  split at h
  · exact Option.noConfusion h
  · split at h
    · exact Option.noConfusion h
    · split at h
      · exact Option.noConfusion h
      · split at h
        · exact Option.noConfusion h
        · split at h
          · exact Option.noConfusion h
          · split at h
            · injection h with h; exact ⟨_, h.symm⟩
            · exact Option.noConfusion h

/-! Claim theorems. -/

/-- C1 (counterexample): the error returned by `post_updates` on a
failing inclusion proof does not carry the index of the offending
update: a bundle failing at index 0 and a bundle failing at index 1
yield the very same outcome, the nullary InvalidPriceUpdate error. -/
theorem c1_error_carries_no_index :
    post_updates H0 [] vaa0 26 [badU, goodU] = post_updates H0 [] vaa0 26 [goodU, badU] ∧
    post_updates H0 [] vaa0 26 [badU, goodU] = .error .InvalidPriceUpdate :=
  ⟨rfl, rfl⟩

/-- C1 (amended): if the inclusion-proof check fails for the update at
index i (all earlier updates passing), the entire `post_updates` call
aborts with the InvalidPriceUpdate error, which carries no index, and
no decoded messages from updates before or after index i are
returned. -/
theorem c1_invalid_proof_aborts_whole_call (H : Bytes → Bytes) (vh : Bytes)
    (vaa : AnchorVaa) (ec : Nat) (wh : WormholeMessage)
    (pre : List Bytes) (bad : Bytes) (post : List Bytes) (mpu : MerklePriceUpdate)
    (hec : vaa.emitter_chain = ec)
    (hwh : WormholeMessage.try_from_bytes vaa.payload = some wh)
    (hpre : ∀ pu ∈ pre, updateOk H wh.root pu = true)
    (hparse : parseMerklePriceUpdate bad = some mpu)
    (hfail : merkleCheck H wh.root mpu.proof mpu.message = false) :
    post_updates H vh vaa ec (pre ++ bad :: post) = .error .InvalidPriceUpdate := by
  unfold post_updates
  rw [if_neg (by simp [hec]), hwh]
  show processUpdates H wh.root (pre ++ bad :: post) [] 0 =
    Except.error ReceiverError.InvalidPriceUpdate
  rw [processUpdates_append_ok H wh.root pre (bad :: post) [] 0 hpre]
  simp [processUpdates, hparse, hfail]

/-- C1 (witness): a concrete bundle whose second update has a tampered
leaf aborts with InvalidPriceUpdate. -/
theorem c1_invalid_proof_witness :
    post_updates H0 [] vaa0 26 [goodU, badU] = .error .InvalidPriceUpdate :=
  c1_invalid_proof_aborts_whole_call H0 [] vaa0 26 ⟨root0⟩ [goodU] badU [] ⟨leafB, []⟩
    rfl rfl (fun pu hpu => by rw [List.mem_singleton] at hpu; subst hpu; rfl) rfl rfl

/-- C2: when the emitter chain matches, the payload carries the
committed root, and every update deserializes, passes its inclusion
proof and decodes to a handled message variant, `post_updates` returns
the ordered sequence of decoded messages together with a count equal
to the number of updates. -/
theorem c2_valid_bundle_returns_all (H : Bytes → Bytes) (vh : Bytes)
    (vaa : AnchorVaa) (ec : Nat) (wh : WormholeMessage) (ups : List Bytes)
    (hec : vaa.emitter_chain = ec)
    (hwh : WormholeMessage.try_from_bytes vaa.payload = some wh)
    (hok : ∀ pu ∈ ups, updateOk H wh.root pu = true) :
    post_updates H vh vaa ec ups = .ok (ups.map decodedOf, ups.length) := by
  unfold post_updates
  rw [if_neg (by simp [hec]), hwh]
  show processUpdates H wh.root ups [] 0 = Except.ok (ups.map decodedOf, ups.length)
  rw [processUpdates_all_ok H wh.root ups hok [] 0]
  simp

/-- C2 (witness): a concrete one-update bundle returns its decoded
PriceUpdate message with count 1. -/
theorem c2_valid_bundle_witness :
    post_updates H0 [] vaa0 26 [goodU] = .ok ([decodedOf goodU], 1) :=
  c2_valid_bundle_returns_all H0 [] vaa0 26 ⟨root0⟩ [goodU] rfl rfl
    (fun pu hpu => by rw [List.mem_singleton] at hpu; subst hpu; rfl)

/-- C3: `post_accumulator_update_vaa` is not total on its input bytes:
on a concrete input whose accumulator-update header parses but whose
embedded VAA bytes are malformed (here: empty), the `unwrap()` on
line 71 of lib.rs panics instead of returning an error result. -/
theorem c3_malformed_vaa_panics :
    post_accumulator_update_vaa 26 [1, 0, 0, 0, 0] = .panicked := rfl

/-- C4: when the posted VAA emitter chain differs from the expected
one, `post_updates` fails with InvalidEmitterChain, and the outcome is
the same for every updates sequence, so no update is hashed or
decoded. -/
theorem c4_wrong_emitter_chain_fail_fast (H : Bytes → Bytes) (vh : Bytes)
    (vaa : AnchorVaa) (ec : Nat)
    (h : vaa.emitter_chain ≠ ec) :
    ∀ price_updates, post_updates H vh vaa ec price_updates =
      .error .InvalidEmitterChain := by
  intro ups
  unfold post_updates
  rw [if_pos h]

/-- C4 (witness): a posted VAA with emitter chain 2 against expected
emitter chain 26 fails with InvalidEmitterChain. -/
theorem c4_wrong_emitter_chain_witness :
    post_updates H0 [] ⟨2, 1 :: 0 :: root0⟩ 26 [goodU] = .error .InvalidEmitterChain :=
  c4_wrong_emitter_chain_fail_fast H0 [] ⟨2, 1 :: 0 :: root0⟩ 26 (by decide) [goodU]

/-- C5: when the posted VAA payload does not decode to the supported
commitment variant, `post_updates` aborts with InvalidWormholeMessage
regardless of the updates sequence; and whenever decoding succeeds,
the payload is exactly the supported variant carrying the 32-byte
root. -/
theorem c5_unsupported_payload_variant (H : Bytes → Bytes) (vh : Bytes)
    (vaa : AnchorVaa) (ec : Nat)
    (hec : vaa.emitter_chain = ec)
    (hwh : WormholeMessage.try_from_bytes vaa.payload = none) :
    (∀ ups, post_updates H vh vaa ec ups = .error .InvalidWormholeMessage) ∧
    (∀ bs wh, WormholeMessage.try_from_bytes bs = some wh →
      bs = 1 :: 0 :: wh.root ∧ wh.root.length = 32) := by
  constructor
  · intro ups
    unfold post_updates
    rw [if_neg (by simp [hec]), hwh]
  · intro bs wh h
    cases bs with
    | nil => exact Option.noConfusion h
    | cons v t =>
      cases t with
      | nil => exact Option.noConfusion h
      | cons d rest =>
        simp only [WormholeMessage.try_from_bytes] at h
        by_cases hc : v = 1 ∧ d = 0 ∧ rest.length = 32
        · rw [if_pos hc] at h
          obtain ⟨h1, h2, h3⟩ := hc
          subst h1; subst h2
          injection h with h
          subst h
          exact ⟨rfl, h3⟩
        · rw [if_neg hc] at h
          exact Option.noConfusion h

/-- C5 (witness): a payload with an unsupported discriminator aborts a
concrete call with InvalidWormholeMessage. -/
theorem c5_unsupported_payload_witness :
    post_updates H0 [] ⟨26, [2]⟩ 26 [[5]] = .error .InvalidWormholeMessage :=
  (c5_unsupported_payload_variant H0 [] ⟨26, [2]⟩ 26 rfl rfl).1 [[5]]

/-- C6: when an update passes its inclusion proof but its leaf starts
with a type discriminator outside the known set, the decode fails and
the whole `post_updates` call aborts with InvalidAccumulatorMessage;
moreover the decoder never produces the catch-all message variant, so
unrecognized tags are a decode failure, not a third variant. -/
theorem c6_unknown_discriminator_aborts (H : Bytes → Bytes) (vh : Bytes)
    (vaa : AnchorVaa) (ec : Nat) (wh : WormholeMessage)
    (pre : List Bytes) (bad : Bytes) (post : List Bytes) (mpu : MerklePriceUpdate)
    (tag : Nat) (rest : Bytes)
    (hec : vaa.emitter_chain = ec)
    (hwh : WormholeMessage.try_from_bytes vaa.payload = some wh)
    (hpre : ∀ pu ∈ pre, updateOk H wh.root pu = true)
    (hparse : parseMerklePriceUpdate bad = some mpu)
    (hchk : merkleCheck H wh.root mpu.proof mpu.message = true)
    (hmsg : mpu.message = tag :: rest)
    (ht0 : tag ≠ 0) (ht1 : tag ≠ 1) :
    post_updates H vh vaa ec (pre ++ bad :: post) =
      .error .InvalidAccumulatorMessage ∧
    (∀ bs t, decodeMessage bs ≠ some (.otherMessage t)) := by
  constructor
  · unfold post_updates
    rw [if_neg (by simp [hec]), hwh]
    show processUpdates H wh.root (pre ++ bad :: post) [] 0 =
      Except.error ReceiverError.InvalidAccumulatorMessage
    rw [processUpdates_append_ok H wh.root pre (bad :: post) [] 0 hpre]
    have hdec : decodeMessage mpu.message = none := by
      rw [hmsg]
      simp only [decodeMessage]
      rw [if_neg ht0, if_neg ht1]
    simp [processUpdates, hparse, hchk, hdec]
  · intro bs t hcontra
    cases bs with
    | nil => exact Option.noConfusion hcontra
    | cons tg r =>
      simp only [decodeMessage] at hcontra
      by_cases h0 : tg = 0
      · rw [if_pos h0] at hcontra
        obtain ⟨pm, hpm⟩ := decodePriceFeedBody_shape r _ hcontra
        exact Message.noConfusion hpm
      · rw [if_neg h0] at hcontra
        by_cases h1 : tg = 1
        · rw [if_pos h1] at hcontra
          injection hcontra with hcontra
          exact Message.noConfusion hcontra
        · rw [if_neg h1] at hcontra
          exact Option.noConfusion hcontra

/-- C6 (witness): a concrete update whose leaf carries discriminator 7
and passes its inclusion proof aborts the call with
InvalidAccumulatorMessage. -/
theorem c6_unknown_discriminator_witness :
    post_updates H0 [] vaaX 26 [badX] = .error .InvalidAccumulatorMessage :=
  (c6_unknown_discriminator_aborts H0 [] vaaX 26 ⟨rootX⟩ [] badX [] ⟨leafX, []⟩ 7
    (List.replicate 60 0) rfl rfl (fun pu hpu => absurd hpu (List.not_mem_nil pu))
    rfl rfl rfl (by decide) (by decide)).1

/-- C7: with a matching emitter chain and a payload carrying the
committed root, an empty updates sequence is valid: `post_updates`
returns the empty message sequence with count 0 and no error. -/
theorem c7_empty_updates_ok (H : Bytes → Bytes) (vh : Bytes)
    (vaa : AnchorVaa) (ec : Nat) (wh : WormholeMessage)
    (hec : vaa.emitter_chain = ec)
    (hwh : WormholeMessage.try_from_bytes vaa.payload = some wh) :
    post_updates H vh vaa ec [] = .ok ([], 0) := by
  unfold post_updates
  rw [if_neg (by simp [hec]), hwh]
  rfl

/-- C7 (witness): a concrete valid attestation with no updates
succeeds with the empty result. -/
theorem c7_empty_updates_witness :
    post_updates H0 [] vaa0 26 [] = .ok ([], 0) :=
  c7_empty_updates_ok H0 [] vaa0 26 ⟨root0⟩ rfl rfl

/-- C8: `post_updates` is deterministic and side-effect-free: it is a
pure function of the posted VAA, the expected emitter chain and the
updates sequence, so any two calls with equal inputs have equal
outcomes and no shared state exists to be mutated. -/
theorem c8_deterministic (H : Bytes → Bytes) (vh1 vh2 : Bytes)
    (v1 v2 : AnchorVaa) (ec1 ec2 : Nat) (u1 u2 : List Bytes)
    (hh : vh1 = vh2) (hv : v1 = v2) (he : ec1 = ec2) (hu : u1 = u2) :
    post_updates H vh1 v1 ec1 u1 = post_updates H vh2 v2 ec2 u2 := by
  subst hh; subst hv; subst he; subst hu; rfl

/-- C8 (witness): two concrete calls with identical inputs agree. -/
theorem c8_deterministic_witness :
    post_updates H0 [] vaa0 26 [goodU] = post_updates H0 [] vaa0 26 [goodU] :=
  c8_deterministic H0 [] [] vaa0 vaa0 26 26 [goodU] [goodU] rfl rfl rfl rfl

/-- C9: the outcome of `post_accumulator_update_vaa` does not depend
on the updates field of the decoded accumulator update data: two
inputs decoding to the same embedded VAA bytes yield the same outcome,
including the same constructed postVAA instruction data. -/
theorem c9_updates_field_ignored (ec : Nat) (d1 d2 : Bytes)
    (a1 a2 : AccumulatorUpdateData)
    (h1 : parseAccumulatorUpdateData d1 = some a1)
    (h2 : parseAccumulatorUpdateData d2 = some a2)
    (hv : a1.vaa = a2.vaa) :
    post_accumulator_update_vaa ec d1 = post_accumulator_update_vaa ec d2 := by
  unfold post_accumulator_update_vaa
  rw [h1, h2]
  show processVaaBytes ec a1.vaa = processVaaBytes ec a2.vaa
  rw [hv]

/-- C9 (witness): two concrete inputs with the same embedded VAA bytes
but different updates fields yield the same outcome. -/
theorem c9_updates_field_ignored_witness :
    post_accumulator_update_vaa 26 [1, 0, 0, 0, 0] =
      post_accumulator_update_vaa 26 [1, 0, 0, 0, 1, 0, 1, 7] :=
  c9_updates_field_ignored 26 [1, 0, 0, 0, 0] [1, 0, 0, 0, 1, 0, 1, 7]
    ⟨[], []⟩ ⟨[], [[7]]⟩ rfl rfl rfl

/-- C10: whenever `post_updates` succeeds, the returned counter equals
the length of the input updates sequence, and so does the number of
decoded messages: each loop iteration either counts its update once or
aborts the whole call. -/
theorem c10_success_counter_equals_length (H : Bytes → Bytes) (vh : Bytes)
    (vaa : AnchorVaa) (ec : Nat) (ups : List Bytes) (msgs : List Message) (c : Nat)
    (h : post_updates H vh vaa ec ups = .ok (msgs, c)) :
    c = ups.length ∧ msgs.length = ups.length := by
  unfold post_updates at h
  split at h
  · exact Except.noConfusion h
  · split at h
    · exact Except.noConfusion h
    · obtain ⟨h1, h2⟩ := processUpdates_ok_count H _ ups [] 0 msgs c h
      exact ⟨by omega, by simpa using h2⟩

/-- C10 (witness): on a concrete successful one-update call, the
counter and the message count both equal 1. -/
theorem c10_success_counter_witness :
    1 = ([goodU] : List Bytes).length ∧ [decodedOf goodU].length = ([goodU] : List Bytes).length :=
  c10_success_counter_equals_length H0 [] vaa0 26 [goodU] [decodedOf goodU] 1 rfl

end PythReceiver

